import Mathlib

/-!
Verification development for the social-media-helper service: a shallow
embedding of the token store (`src/database.js`, `src/database.ts`), the
authentication middleware, the `/tiktok` download handler and its
download-harvesting poll loop (`src/index.js`), together with theorems
settling the specified behaviour against these definitions.

Conventions: JS numbers used as counters are modelled as `Int`; timestamps
(`Date` values, `mtime.getTime()`) as integer milliseconds; fallible reads
as `Except`/`Option`; the JWT verifier as an oracle `String → Option String`
returning the embedded email exactly when signature and expiry check out.
-/

namespace SMH

/-- Token record as persisted by the flat-file store
(`src/database.js`, `saveToken`): token string, owner email,
`allowed_requests`, `used_requests`, creation and expiry timestamps. -/
structure TokenRecord where
  token : String
  email : String
  allowed_requests : Int
  used_requests : Int
  created_at : Int
  expires_at : Int
  deriving Repr, DecidableEq

/-- The flat-file store content: the `data.tokens` array. -/
abbrev Db := List TokenRecord

/-- JS `data.tokens.find(t => t.token === token)` (src/database.js line 53). -/
def findTokenRec (db : Db) (tok : String) : Option TokenRecord :=
  db.find? (fun t => t.token == tok)

/-- Model of `getToken` of src/database.js: find the record, and return null when the
record exists but its `expires_at` lies strictly before now. -/
def getToken (db : Db) (tok : String) (now : Int) : Option TokenRecord :=
  match findTokenRec db tok with
  | some tokenData => if tokenData.expires_at < now then none else some tokenData
  | none => none

/-- Model of `saveToken` of src/database.js: push a fresh record with
`used_requests = 0` onto the array. -/
def saveToken (db : Db) (tok email : String) (allowedRequests : Int)
    (now expiresAt : Int) : Db :=
  db ++ [{ token := tok, email := email, allowed_requests := allowedRequests,
           used_requests := 0, created_at := now, expires_at := expiresAt }]

/-- Model of `incrementUsage` of src/database.js: `findIndex` on the token and, when
found, bump that record's `used_requests` by one; otherwise leave the store
unchanged. -/
def incrementUsage : Db → String → Db
  | [], _ => []
  | r :: rest, tok =>
    if r.token == tok then
      { r with used_requests := r.used_requests + 1 } :: rest
    else
      r :: incrementUsage rest tok

/-- Remaining quota of a flat-file record:
`allowed_requests - used_requests` (logged at src/index.js line 75). -/
def remaining (r : TokenRecord) : Int := r.allowed_requests - r.used_requests

/-- Outcome of the `authenticateToken` middleware: an error response with its
HTTP status, or `next()` with the user info attached to the request. -/
inductive AuthResult where
  | reject (status : Nat) (error : String)
  | proceed (token email : String)
  deriving Repr, DecidableEq

/-- Model of `authenticateToken` of src/index.js: missing-header check, JWT
verification, store lookup via `getToken`, and the quota guard
`used_requests >= allowed_requests` answered with 402. -/
def authenticateToken (headerToken : Option String)
    (jwtVerify : String → Option String) (db : Db) (now : Int) : AuthResult :=
  match headerToken with
  | none => .reject 401 "API token is required"
  | some tok =>
    match jwtVerify tok with
    | none => .reject 401 "Invalid or expired token"
    | some email =>
      match getToken db tok now with
      | none => .reject 403 "Invalid or revoked token"
      | some tokenData =>
        if tokenData.allowed_requests ≤ tokenData.used_requests then
          .reject 402 "Request limit exceeded"
        else
          .proceed tok email

/-- The `res.download` completion callback (src/index.js lines 348-361): when
the stream errored only the temporary file is cleaned up; only on success is
`incrementUsage` invoked for the credential. -/
def downloadCallback (streamErr : Bool) (tok : String) (db : Db) : Db :=
  if streamErr then db else incrementUsage db tok

/-- Result of one `/tiktok` request: stored state afterwards, HTTP status, and
whether the automation stage (browser launch) was reached. -/
structure FlowResult where
  db : Db
  status : Nat
  automationReached : Bool
  deriving Repr, DecidableEq

/-- The `/tiktok` request flow (src/index.js lines 218-370): the
`authenticateToken` middleware, the URL presence check, the automation stage
(abstracted to its success bit), and the delivery callback charging the quota
only when the stream succeeded. -/
def tiktokFlow (headerToken : Option String)
    (jwtVerify : String → Option String) (db : Db) (now : Int)
    (url : Option String) (automationOk streamErr : Bool) : FlowResult :=
  match authenticateToken headerToken jwtVerify db now with
  | .reject s _ => { db := db, status := s, automationReached := false }
  | .proceed tok _ =>
    match url with
    | none => { db := db, status := 400, automationReached := false }
    | some _ =>
      if automationOk then
        { db := downloadCallback streamErr tok db, status := 200,
          automationReached := true }
      else
        { db := db, status := 500, automationReached := true }

/-- Applying `incrementUsage` rewrites the first record matching the token to the same
record with `used_requests` bumped by one. -/
theorem findTokenRec_incrementUsage (db : Db) (tok : String) (r : TokenRecord)
    (h : findTokenRec db tok = some r) :
    findTokenRec (incrementUsage db tok) tok
      = some { r with used_requests := r.used_requests + 1 } := by
  induction db with
  | nil => simp [findTokenRec] at h
  | cons a rest ih =>
    by_cases ha : (a.token == tok) = true
    · have h2 : a = r := by
        have := List.find?_cons_of_pos (p := fun t => t.token == tok) rest ha
        rw [findTokenRec, this] at h
        exact Option.some.inj h
      subst h2
      have h1 : incrementUsage (a :: rest) tok
          = { a with used_requests := a.used_requests + 1 } :: rest := by
        simp [incrementUsage, ha]
      rw [h1, findTokenRec]
      exact List.find?_cons_of_pos rest (by simpa using ha)
    · have hne : ¬ ((fun t => t.token == tok) a = true) := by simpa using ha
      have h1 : incrementUsage (a :: rest) tok = a :: incrementUsage rest tok := by
        simp [incrementUsage, ha]
      rw [findTokenRec, List.find?_cons_of_neg rest hne] at h
      rw [h1, findTokenRec,
        List.find?_cons_of_neg (p := fun (t : TokenRecord) => t.token == tok) _ hne]
      exact ih h

/-- Applying `incrementUsage` leaves records that do not match the token unchanged. -/
theorem mem_incrementUsage (db : Db) (tok : String) (x : TokenRecord)
    (hx : x ∈ incrementUsage db tok) :
    x ∈ db ∨ ∃ r ∈ db, r.token == tok ∧
      x = { r with used_requests := r.used_requests + 1 } := by
  induction db with
  | nil => simp [incrementUsage] at hx
  | cons a rest ih =>
    by_cases ha : (a.token == tok) = true
    · simp only [incrementUsage, ha, if_pos] at hx
      rcases List.mem_cons.mp hx with h | h
      · exact Or.inr ⟨a, List.mem_cons_self _ _, ha, h⟩
      · exact Or.inl (List.mem_cons_of_mem _ h)
    · simp only [incrementUsage, ha, Bool.false_eq_true, if_neg,
        not_false_iff] at hx
      rcases List.mem_cons.mp hx with h | h
      · exact Or.inl (h ▸ List.mem_cons_self _ _)
      · rcases ih h with h2 | ⟨r, hr, hrt, hxr⟩
        · exact Or.inl (List.mem_cons_of_mem _ h2)
        · exact Or.inr ⟨r, List.mem_cons_of_mem _ hr, hrt, hxr⟩

/-- Concrete store with one live record, used to instantiate theorems. -/
def dbExample : Db :=
  [{ token := "tokA", email := "a@x.com", allowed_requests := 5,
     used_requests := 2, created_at := 0, expires_at := 1000 }]

/-- Concrete store with one record whose quota is fully used. -/
def dbExhausted : Db :=
  [{ token := "tokB", email := "b@x.com", allowed_requests := 3,
     used_requests := 3, created_at := 0, expires_at := 1000 }]

/-- Concrete store with one expired record that still has quota left. -/
def dbExpired : Db :=
  [{ token := "tokC", email := "c@x.com", allowed_requests := 100,
     used_requests := 0, created_at := 0, expires_at := 10 }]

/-- C3: the credential's remaining-request count is decremented by exactly 1
when the artifact stream to the caller completes successfully, and is left
unchanged when the stream errors. -/
theorem c3_decrement_iff_stream_success (db : Db) (tok : String)
    (r : TokenRecord) (h : findTokenRec db tok = some r) :
    (∃ r2, findTokenRec (downloadCallback false tok db) tok = some r2 ∧
        remaining r2 = remaining r - 1) ∧
    downloadCallback true tok db = db := by
  refine ⟨⟨{ r with used_requests := r.used_requests + 1 }, ?_, ?_⟩, rfl⟩
  · simpa [downloadCallback] using findTokenRec_incrementUsage db tok r h
  · simp only [remaining]
    ring

/-- Witness for C3 at a concrete store and credential. -/
theorem c3_decrement_iff_stream_success_witness :
    (∃ r2, findTokenRec (downloadCallback false "tokA" dbExample) "tokA"
        = some r2 ∧
      remaining r2 = remaining
        { token := "tokA", email := "a@x.com", allowed_requests := 5,
          used_requests := 2, created_at := 0, expires_at := 1000 } - 1) ∧
    downloadCallback true "tokA" dbExample = dbExample :=
  c3_decrement_iff_stream_success dbExample "tokA" _ (by decide)

/-- C4: a credential whose store record has zero remaining requests is
answered 402 "Request limit exceeded", and the automation stage is never
reached for that request. -/
theorem c4_zero_quota_rejected (db : Db) (tok email : String)
    (jwtVerify : String → Option String) (now : Int) (r : TokenRecord)
    (hjwt : jwtVerify tok = some email)
    (hget : getToken db tok now = some r)
    (hzero : remaining r = 0) :
    authenticateToken (some tok) jwtVerify db now
      = .reject 402 "Request limit exceeded" ∧
    ∀ url automationOk streamErr,
      tiktokFlow (some tok) jwtVerify db now url automationOk streamErr
        = { db := db, status := 402, automationReached := false } := by
  have hguard : r.allowed_requests ≤ r.used_requests := by
    unfold remaining at hzero
    omega
  have hauth : authenticateToken (some tok) jwtVerify db now
      = .reject 402 "Request limit exceeded" := by
    simp [authenticateToken, hjwt, hget, hguard]
  exact ⟨hauth, fun url a s => by simp [tiktokFlow, hauth]⟩

/-- Witness for C4: the exhausted record is rejected with 402 and the
automation is not reached. -/
theorem c4_zero_quota_rejected_witness :
    authenticateToken (some "tokB") (fun _ => some "b@x.com") dbExhausted 500
      = .reject 402 "Request limit exceeded" ∧
    ∀ url automationOk streamErr,
      tiktokFlow (some "tokB") (fun _ => some "b@x.com") dbExhausted 500
          url automationOk streamErr
        = { db := dbExhausted, status := 402, automationReached := false } :=
  c4_zero_quota_rejected dbExhausted "tokB" "b@x.com" _ 500
    { token := "tokB", email := "b@x.com", allowed_requests := 3,
      used_requests := 3, created_at := 0, expires_at := 1000 }
    rfl (by decide) (by decide)

/-- C5: a record whose `expires_at` lies in the past makes `getToken` return
`none`, exactly as for a nonexistent record, and the request is answered
403 "Invalid or revoked token", regardless of the stored quota. -/
theorem c5_expired_treated_as_absent (db : Db) (tok email : String)
    (jwtVerify : String → Option String) (now : Int) (r : TokenRecord)
    (hfind : findTokenRec db tok = some r)
    (hexp : r.expires_at < now)
    (hjwt : jwtVerify tok = some email) :
    getToken db tok now = none ∧
    getToken db tok now = getToken [] tok now ∧
    authenticateToken (some tok) jwtVerify db now
      = .reject 403 "Invalid or revoked token" := by
  have hnone : getToken db tok now = none := by
    simp [getToken, hfind, hexp]
  refine ⟨hnone, ?_, ?_⟩
  · rw [hnone]
    rfl
  · simp [authenticateToken, hjwt, hnone]

/-- Witness for C5 at a concrete expired record with positive quota. -/
theorem c5_expired_treated_as_absent_witness :
    getToken dbExpired "tokC" 20 = none ∧
    getToken dbExpired "tokC" 20 = getToken [] "tokC" 20 ∧
    authenticateToken (some "tokC") (fun _ => some "c@x.com") dbExpired 20
      = .reject 403 "Invalid or revoked token" :=
  c5_expired_treated_as_absent dbExpired "tokC" "c@x.com" _ 20
    { token := "tokC", email := "c@x.com", allowed_requests := 100,
      used_requests := 0, created_at := 0, expires_at := 10 }
    (by decide) (by decide) rfl

/-! ### The download-harvest poll loop (src/index.js lines 304-333) -/

/-- A directory entry as inspected by `getLatestFile`: file name and
`mtime.getTime()` in integer milliseconds. -/
structure FileInfo where
  name : String
  time : Int
  deriving Repr, DecidableEq

/-- Stable insertion into a list sorted by descending `time`, modelling the
`sort((a, b) => b.time - a.time)` call. -/
def insertByTimeDesc (f : FileInfo) : List FileInfo → List FileInfo
  | [] => [f]
  | g :: rest =>
    if g.time ≤ f.time then f :: g :: rest else g :: insertByTimeDesc f rest

/-- Sort a directory listing by descending modification time. -/
def sortByTimeDesc : List FileInfo → List FileInfo
  | [] => []
  | f :: rest => insertByTimeDesc f (sortByTimeDesc rest)

/-- Model of `getLatestFile` (src/index.js lines 307-312): stat every file of the
download directory, sort by descending modification time, take the first. -/
def getLatestFile (files : List FileInfo) : Option FileInfo :=
  (sortByTimeDesc files).head?

theorem insertByTimeDesc_ne_nil (f : FileInfo) (l : List FileInfo) :
    insertByTimeDesc f l ≠ [] := by
  cases l with
  | nil => simp [insertByTimeDesc]
  | cons g rest =>
    rw [insertByTimeDesc]
    split <;> simp

theorem mem_insertByTimeDesc (f x : FileInfo) (l : List FileInfo)
    (hx : x ∈ insertByTimeDesc f l) : x = f ∨ x ∈ l := by
  induction l with
  | nil => simpa [insertByTimeDesc] using hx
  | cons g rest ih =>
    rw [insertByTimeDesc] at hx
    split at hx
    · rcases List.mem_cons.mp hx with h | h
      · exact Or.inl h
      · exact Or.inr h
    · rcases List.mem_cons.mp hx with h | h
      · exact Or.inr (h ▸ List.mem_cons_self _ _)
      · rcases ih h with h2 | h2
        · exact Or.inl h2
        · exact Or.inr (List.mem_cons_of_mem _ h2)

/-- The file returned by `getLatestFile` is a member of the directory listing
and is most recently modified among its entries. -/
theorem getLatestFile_max (l : List FileInfo) (f : FileInfo)
    (h : getLatestFile l = some f) : f ∈ l ∧ ∀ g ∈ l, g.time ≤ f.time := by
  induction l generalizing f with
  | nil => simp [getLatestFile, sortByTimeDesc] at h
  | cons a rest ih =>
    rw [getLatestFile, sortByTimeDesc] at h
    cases hrest : sortByTimeDesc rest with
    | nil =>
      have hrnil : rest = [] := by
        cases rest with
        | nil => rfl
        | cons b tl => exact absurd hrest (insertByTimeDesc_ne_nil b _)
      rw [hrest] at h
      simp only [insertByTimeDesc, List.head?_cons, Option.some.injEq] at h
      subst h
      subst hrnil
      exact ⟨List.mem_cons_self _ _, by simp⟩
    | cons b tl =>
      rw [hrest] at h
      have hb := ih b (by rw [getLatestFile, hrest]; rfl)
      rw [insertByTimeDesc] at h
      by_cases hba : b.time ≤ a.time
      · rw [if_pos hba] at h
        simp only [List.head?_cons, Option.some.injEq] at h
        subst h
        refine ⟨List.mem_cons_self _ _, ?_⟩
        intro g hg
        rcases List.mem_cons.mp hg with hga | hgr
        · exact le_of_eq (congrArg FileInfo.time hga)
        · exact le_trans (hb.2 g hgr) hba
      · rw [if_neg hba] at h
        simp only [List.head?_cons, Option.some.injEq] at h
        subst h
        refine ⟨List.mem_cons_of_mem _ hb.1, ?_⟩
        intro g hg
        rcases List.mem_cons.mp hg with hga | hgr
        · rw [hga]
          exact le_of_lt (lt_of_not_le hba)
        · exact hb.2 g hgr

/-- JS `String.prototype.endsWith`: the string's characters end with the
given characters. -/
def strEndsWith (s p : String) : Bool :=
  List.isSuffixOf p.toList s.toList

/-- One iteration body of the poll loop (src/index.js lines 320-328): look at
the single most-recently-modified file only; accept it exactly when it is
strictly newer than the pre-click snapshot (or the snapshot was empty) and
its name ends neither in ".crdownload" nor in ".tmp". -/
def pollOnce (initialLatest : Option FileInfo) (dir : List FileInfo) :
    Option FileInfo :=
  match getLatestFile dir with
  | none => none
  | some currentLatest =>
    if (match initialLatest with
        | none => true
        | some init => decide (init.time < currentLatest.time)) then
      if !(strEndsWith currentLatest.name ".crdownload")
          && !(strEndsWith currentLatest.name ".tmp") then
        some currentLatest
      else none
    else none

/-- Poll interval in milliseconds: the 500 of the `setTimeout` call. -/
def pollIntervalMs : Nat := 500

/-- Maximum number of poll iterations: the bound 60 of the `for` loop. -/
def maxPolls : Nat := 60

/-- The poll loop, at iteration `i` with `fuel` iterations left; `dirAt k` is
the directory content observed by iteration `k`. -/
def pollLoop (initialLatest : Option FileInfo)
    (dirAt : Nat → List FileInfo) : Nat → Nat → Option FileInfo
  | _, 0 => none
  | i, fuel + 1 =>
    match pollOnce initialLatest (dirAt i) with
    | some f => some f
    | none => pollLoop initialLatest dirAt (i + 1) fuel

/-- The harvesting stage: snapshot the most-recently-modified file of the
pre-click directory content, then poll up to `maxPolls` times; `none` is the
"Download timed out after 30 seconds" failure. -/
def harvest (initialDir : List FileInfo) (dirAt : Nat → List FileInfo) :
    Option FileInfo :=
  pollLoop (getLatestFile initialDir) dirAt 0 maxPolls

theorem pollOnce_eq_some (init : Option FileInfo) (dir : List FileInfo)
    (f : FileInfo) (h : pollOnce init dir = some f) :
    getLatestFile dir = some f ∧
    (∀ i, init = some i → i.time < f.time) ∧
    strEndsWith f.name ".crdownload" = false ∧
    strEndsWith f.name ".tmp" = false := by
  unfold pollOnce at h
  split at h
  · cases h
  · next c hg =>
    split at h
    · next hcond =>
      split at h
      · next hsuf =>
        have hcf : c = f := Option.some.inj h
        subst hcf
        simp only [Bool.and_eq_true, Bool.not_eq_true'] at hsuf
        refine ⟨hg, ?_, hsuf.1, hsuf.2⟩
        intro i hi
        subst hi
        simpa using hcond
      · cases h
    · cases h

theorem pollLoop_eq_none_iff (init : Option FileInfo)
    (dirAt : Nat → List FileInfo) (i fuel : Nat) :
    pollLoop init dirAt i fuel = none ↔
      ∀ k < fuel, pollOnce init (dirAt (i + k)) = none := by
  induction fuel generalizing i with
  | zero => simp [pollLoop]
  | succ n ih =>
    cases hp : pollOnce init (dirAt i) with
    | some f =>
      have hl : pollLoop init dirAt i (n + 1) = some f := by
        simp [pollLoop, hp]
      constructor
      · intro h
        rw [hl] at h
        cases h
      · intro h
        have h0 := h 0 (Nat.succ_pos n)
        rw [Nat.add_zero] at h0
        rw [h0] at hp
        cases hp
    | none =>
      have hl : pollLoop init dirAt i (n + 1)
          = pollLoop init dirAt (i + 1) n := by
        simp [pollLoop, hp]
      rw [hl, ih (i + 1)]
      constructor
      · intro h k hk
        cases k with
        | zero => simpa using hp
        | succ m =>
          have hm := h m (Nat.lt_of_succ_lt_succ hk)
          have : i + 1 + m = i + (m + 1) := by omega
          rwa [this] at hm
      · intro h k hk
        have hm := h (k + 1) (Nat.succ_lt_succ hk)
        have : i + (k + 1) = i + 1 + k := by omega
        rwa [this] at hm

theorem pollLoop_eq_some (init : Option FileInfo)
    (dirAt : Nat → List FileInfo) (i fuel : Nat) (f : FileInfo)
    (h : pollLoop init dirAt i fuel = some f) :
    ∃ k, k < fuel ∧ pollOnce init (dirAt (i + k)) = some f ∧
      ∀ j < k, pollOnce init (dirAt (i + j)) = none := by
  induction fuel generalizing i with
  | zero =>
    rw [pollLoop] at h
    cases h
  | succ n ih =>
    cases hp : pollOnce init (dirAt i) with
    | some g =>
      have hgf : g = f := by
        simp only [pollLoop, hp] at h
        exact Option.some.inj h
      subst hgf
      refine ⟨0, Nat.succ_pos n, by simpa using hp, ?_⟩
      intro j hj
      exact absurd hj (Nat.not_lt_zero j)
    | none =>
      have hl : pollLoop init dirAt i (n + 1)
          = pollLoop init dirAt (i + 1) n := by
        simp [pollLoop, hp]
      rw [hl] at h
      obtain ⟨k, hk, hsome, hnone⟩ := ih (i + 1) h
      refine ⟨k + 1, Nat.succ_lt_succ hk, ?_, ?_⟩
      · have : i + 1 + k = i + (k + 1) := by omega
        rwa [this] at hsome
      · intro j hj
        cases j with
        | zero => simpa using hp
        | succ m =>
          have hm := hnone m (Nat.lt_of_succ_lt_succ hj)
          have : i + 1 + m = i + (m + 1) := by omega
          rwa [this] at hm

/-- C1 counterexample: the pre-click snapshot records mtime 1; at every poll
the directory holds a completed file "video.mp4" of mtime 5 together with a
strictly newer in-progress file "video.mp4.crdownload" of mtime 10. The claim
says the harvester selects "video.mp4"; the code inspects only the newest
file of each poll, which carries the in-progress suffix, and therefore times
out selecting nothing at all. -/
theorem c1_harvest_counterexample :
    harvest [{ name := "old.mp4", time := 1 }]
        (fun _ => [{ name := "video.mp4", time := 5 },
                   { name := "video.mp4.crdownload", time := 10 }])
      = none ∧
    ({ name := "video.mp4", time := 5 } : FileInfo)
      ∈ [({ name := "video.mp4", time := 5 } : FileInfo),
         { name := "video.mp4.crdownload", time := 10 }] ∧
    getLatestFile [{ name := "old.mp4", time := 1 }]
      = some { name := "old.mp4", time := 1 } ∧
    (1 : Int) < 5 ∧
    strEndsWith "video.mp4" ".crdownload" = false ∧
    strEndsWith "video.mp4" ".tmp" = false := by
  refine ⟨by decide, by decide, by decide, by decide, by decide, by decide⟩

/-- C1 (amended): the harvester polls the directory up to 60 times at a 500ms
interval, and each poll inspects only the single most-recently-modified file
of the directory: that file is delivered exactly when it is strictly newer
than the pre-click snapshot and its name carries no in-progress suffix; when
the newest file of every poll fails this test — even when an older completed
file strictly newer than the snapshot is present — no file is selected and
the request fails with the download-timeout error (`none`). -/
theorem c1_harvest_amended (initialDir : List FileInfo)
    (dirAt : Nat → List FileInfo) :
    maxPolls = 60 ∧ pollIntervalMs = 500 ∧
    (harvest initialDir dirAt = none ↔
      ∀ k < maxPolls, pollOnce (getLatestFile initialDir) (dirAt k) = none) ∧
    (∀ f, harvest initialDir dirAt = some f →
      ∃ k < maxPolls,
        getLatestFile (dirAt k) = some f ∧
        f ∈ dirAt k ∧ (∀ g ∈ dirAt k, g.time ≤ f.time) ∧
        (∀ init, getLatestFile initialDir = some init → init.time < f.time) ∧
        strEndsWith f.name ".crdownload" = false ∧
        strEndsWith f.name ".tmp" = false ∧
        ∀ j < k, pollOnce (getLatestFile initialDir) (dirAt j) = none) := by
  refine ⟨rfl, rfl, ?_, ?_⟩
  · have h := pollLoop_eq_none_iff (getLatestFile initialDir) dirAt 0 maxPolls
    simpa [harvest] using h
  · intro f hf
    obtain ⟨k, hk, hsome, hnone⟩ :=
      pollLoop_eq_some (getLatestFile initialDir) dirAt 0 maxPolls f
        (by simpa [harvest] using hf)
    rw [Nat.zero_add] at hsome
    obtain ⟨hlat, hnewer, hsuf1, hsuf2⟩ :=
      pollOnce_eq_some (getLatestFile initialDir) (dirAt k) f hsome
    obtain ⟨hmem, hmax⟩ := getLatestFile_max (dirAt k) f hlat
    refine ⟨k, hk, hlat, hmem, hmax, hnewer, hsuf1, hsuf2, ?_⟩
    intro j hj
    have := hnone j hj
    rwa [Nat.zero_add] at this

/-- Witness for C1 (amended), timeout direction: a directory whose newest
file is always in-progress-suffixed yields the download-timeout result. -/
theorem c1_harvest_amended_witness :
    harvest [{ name := "old.mp4", time := 1 }]
        (fun _ => [{ name := "clip.mp4.crdownload", time := 9 }]) = none :=
  ((c1_harvest_amended [{ name := "old.mp4", time := 1 }]
      (fun _ => [{ name := "clip.mp4.crdownload", time := 9 }])).2.2.1).mpr
    (by decide)

/-! ### Statement order of the `/tiktok` handler (src/index.js lines 218-370) -/

/-- The statements of the handler's try block, one constructor per awaited
action of the source, in source order. -/
inductive TkStep where
  | launchBrowser
  | newPage
  | configureDownload
  | navigate
  | waitPlayer
  | scrollIntoView
  | computeRect
  | rightClick
  | waitDownloadOption
  | resolveOptionElem
  | dispatchClick
  | snapshotLatest
  | pollDownloads
  | streamFile
  | closeBrowser
  deriving Repr, DecidableEq

/-- Source position of each statement inside the try block. -/
def stepIdx : TkStep → Nat
  | .launchBrowser => 0
  | .newPage => 1
  | .configureDownload => 2
  | .navigate => 3
  | .waitPlayer => 4
  | .scrollIntoView => 5
  | .computeRect => 6
  | .rightClick => 7
  | .waitDownloadOption => 8
  | .resolveOptionElem => 9
  | .dispatchClick => 10
  | .snapshotLatest => 11
  | .pollDownloads => 12
  | .streamFile => 13
  | .closeBrowser => 14

/-- The try block statements in source order. -/
def tiktokTrySteps : List TkStep :=
  [.launchBrowser, .newPage, .configureDownload, .navigate, .waitPlayer,
   .scrollIntoView, .computeRect, .rightClick, .waitDownloadOption,
   .resolveOptionElem, .dispatchClick, .snapshotLatest, .pollDownloads,
   .streamFile, .closeBrowser]

/-- Execution trace of one handler invocation: with `failAt = none` the whole
try block runs (its last statement is `browser.close()`); with
`failAt = some s` the statements before `s` run, and the catch block runs
`if (browser) await browser.close()` — it closes the browser exactly when
the launch had completed. -/
def tiktokRun (failAt : Option TkStep) : List TkStep :=
  match failAt with
  | none => tiktokTrySteps
  | some s =>
    let done := tiktokTrySteps.takeWhile (fun t => stepIdx t < stepIdx s)
    done ++ (if TkStep.launchBrowser ∈ done then [TkStep.closeBrowser] else [])

/-- C2 counterexample: on the success trace the pre-click snapshot
(`initialLatest = getLatestFile()`, line 314) is NOT taken before the
synthetic click (`page.evaluate(el => el.click())`, lines 300-302): the
source dispatches the click first. -/
theorem c2_snapshot_before_click_counterexample :
    ¬ (tiktokRun none).indexOf TkStep.snapshotLatest
        < (tiktokRun none).indexOf TkStep.dispatchClick := by
  decide

/-- C2 (amended): in every run of the handler the synthetic click is
dispatched first and the snapshot of the most-recently-modified file is
recorded immediately afterwards, directly before the polling loop starts. -/
theorem c2_click_then_snapshot_amended :
    (tiktokRun none).indexOf TkStep.dispatchClick
        < (tiktokRun none).indexOf TkStep.snapshotLatest ∧
    (tiktokRun none).indexOf TkStep.snapshotLatest + 1
        = (tiktokRun none).indexOf TkStep.pollDownloads ∧
    TkStep.dispatchClick ∈ tiktokRun none ∧
    TkStep.snapshotLatest ∈ tiktokRun none := by
  decide

/-- C8: whenever the browser launch completed — on the success path and on
every failure path — the trace of the handler contains the browser-close
action: the handler never terminates with the session still open. -/
theorem c8_browser_always_closed (failAt : Option TkStep)
    (h : TkStep.launchBrowser ∈ tiktokRun failAt) :
    TkStep.closeBrowser ∈ tiktokRun failAt := by
  revert h
  cases failAt with
  | none => decide
  | some s => cases s <;> decide

/-- Witness for C8: a player-lookup failure still closes the browser. -/
theorem c8_browser_always_closed_witness :
    TkStep.closeBrowser ∈ tiktokRun (some TkStep.waitPlayer) :=
  c8_browser_always_closed (some TkStep.waitPlayer) (by decide)

/-! ### The "Download video" menu lookup (src/index.js lines 281-297) -/

/-- Timeout of the primary `::-p-text(Download video)` wait. -/
def primaryTimeoutMs : Nat := 8000

/-- Timeout of the fallback XPath wait. -/
def fallbackTimeoutMs : Nat := 5000

/-- Model of `page.waitForSelector` with a timeout: the element appears `appearsAt`
milliseconds after the wait starts (never when `none`); the call returns at
the appearance time on success and throws a timeout error after waiting the
full timeout otherwise. -/
def waitForSelector (appearsAt : Option Nat) (timeout : Nat) :
    Except Nat Nat :=
  match appearsAt with
  | some t => if t ≤ timeout then .ok t else .error timeout
  | none => .error timeout

/-- Model of `page.$(primary) || page.$(fallback)` followed by the null check that
throws "Could not find download option element" (src/index.js lines
293-297). -/
def resolveDownloadOption (pA fA : Option Nat) : Except String String :=
  if pA.isSome then .ok "primary"
  else if fA.isSome then .ok "fallback"
  else .error "Could not find download option element"

/-- The two-tier lookup (src/index.js lines 282-297): wait for the primary
locator with the 8s timeout; only in its catch block wait for the fallback
locator with the 5s timeout, sequentially; a timeout of the fallback
propagates to the handler's outer catch (the 500 "Failed to scrape TikTok"
response). Returns the outcome together with the elapsed waiting time. -/
def locateDownloadOption (pA fA : Option Nat) : Except String String × Nat :=
  match waitForSelector pA primaryTimeoutMs with
  | .ok t => (resolveDownloadOption pA fA, t)
  | .error t1 =>
    match waitForSelector fA fallbackTimeoutMs with
    | .ok t2 => (resolveDownloadOption pA fA, t1 + t2)
    | .error t2 => (.error "Failed to scrape TikTok", t1 + t2)

theorem waitForSelector_ok (a : Option Nat) (T t : Nat)
    (h : waitForSelector a T = .ok t) : a = some t ∧ t ≤ T := by
  cases a with
  | none => cases h
  | some u =>
    rw [show waitForSelector (some u) T
        = if u ≤ T then Except.ok u else Except.error T from rfl] at h
    by_cases hu : u ≤ T
    · rw [if_pos hu] at h
      cases h
      exact ⟨rfl, hu⟩
    · rw [if_neg hu] at h
      cases h

theorem waitForSelector_error_eq (a : Option Nat) (T e : Nat)
    (h : waitForSelector a T = .error e) : e = T := by
  cases a with
  | none => exact (Except.error.inj h).symm
  | some u =>
    rw [show waitForSelector (some u) T
        = if u ≤ T then Except.ok u else Except.error T from rfl] at h
    by_cases hu : u ≤ T
    · rw [if_pos hu] at h
      cases h
    · rw [if_neg hu] at h
      exact (Except.error.inj h).symm

/-- C6: the primary locator is waited on with an 8000ms timeout; the fallback
wait (5000ms) runs only when the primary wait timed out, sequentially after
it, so the elapsed time is the primary's elapsed time alone on its success,
`8000 + t2` when the fallback succeeds after `t2`, at most 13000ms overall,
and exactly 13000ms with a failure outcome when both strategies fail. -/
theorem c6_two_tier_lookup (pA fA : Option Nat) :
    primaryTimeoutMs = 8000 ∧ fallbackTimeoutMs = 5000 ∧
    (∀ t, waitForSelector pA primaryTimeoutMs = .ok t →
      (locateDownloadOption pA fA).2 = t ∧ t ≤ primaryTimeoutMs) ∧
    (∀ t2, waitForSelector pA primaryTimeoutMs = .error primaryTimeoutMs →
      waitForSelector fA fallbackTimeoutMs = .ok t2 →
      (locateDownloadOption pA fA).2 = primaryTimeoutMs + t2) ∧
    (locateDownloadOption pA fA).2 ≤ primaryTimeoutMs + fallbackTimeoutMs ∧
    (pA = none → fA = none →
      locateDownloadOption pA fA
        = (.error "Failed to scrape TikTok",
            primaryTimeoutMs + fallbackTimeoutMs)) := by
  refine ⟨rfl, rfl, ?_, ?_, ?_, ?_⟩
  · intro t ht
    refine ⟨?_, (waitForSelector_ok pA _ t ht).2⟩
    unfold locateDownloadOption
    rw [ht]
  · intro t2 h1 h2
    unfold locateDownloadOption
    rw [h1, h2]
  · cases hw : waitForSelector pA primaryTimeoutMs with
    | ok t =>
      have hle := (waitForSelector_ok pA _ t hw).2
      unfold locateDownloadOption
      rw [hw]
      simp only
      omega
    | error t1 =>
      have ht1 : t1 = primaryTimeoutMs := waitForSelector_error_eq pA _ t1 hw
      cases hw2 : waitForSelector fA fallbackTimeoutMs with
      | ok t2 =>
        have hle := (waitForSelector_ok fA _ t2 hw2).2
        unfold locateDownloadOption
        rw [hw, hw2]
        simp only
        omega
      | error t2 =>
        have ht2 : t2 = fallbackTimeoutMs :=
          waitForSelector_error_eq fA _ t2 hw2
        unfold locateDownloadOption
        rw [hw, hw2]
        simp only
        omega
  · intro hp hf
    subst hp
    subst hf
    rfl

/-- Witness for C6: a primary hit after 3000ms resolves without the
fallback's wait, and two misses fail after the full 13000ms. -/
theorem c6_two_tier_lookup_witness :
    ((locateDownloadOption (some 3000) none).2 = 3000 ∧
      3000 ≤ primaryTimeoutMs) ∧
    locateDownloadOption none none
      = (.error "Failed to scrape TikTok",
          primaryTimeoutMs + fallbackTimeoutMs) :=
  ⟨(c6_two_tier_lookup (some 3000) none).2.2.1 3000 rfl,
   (c6_two_tier_lookup none none).2.2.2.2.2 rfl rfl⟩

/-! ### Token issuing (src/index.js lines 125-156) -/

/-- JS truthiness of the `email` field (a string): falsy exactly when
empty. -/
def truthyString (s : String) : Bool := !(s == "")

/-- JS truthiness of the `allowedRequests` field (a number): falsy exactly
when zero. -/
def truthyNumber (n : Int) : Bool := !(n == 0)

/-- Response of the /generate-api-token handler together with the store
contents afterwards. -/
structure GenerateResult where
  status : Nat
  error : Option String
  db : Db
  deriving Repr, DecidableEq

/-- The /generate-api-token handler (src/index.js lines 125-156): static
admin-credential comparison, the truthiness check
`if (!email || !allowedRequests)`, then JWT signing and `saveToken`. -/
def generateApiToken (adminEmailCfg adminPassCfg : String)
    (adminEmail adminPass email : String) (allowedRequests : Int)
    (tok : String) (now expiresAt : Int) (db : Db) : GenerateResult :=
  if adminEmail != adminEmailCfg || adminPass != adminPassCfg then
    { status := 401, error := some "Invalid admin credentials", db := db }
  else if !(truthyString email) || !(truthyNumber allowedRequests) then
    { status := 400, error := some "Email and allowedRequests are required",
      db := db }
  else
    { status := 200, error := none,
      db := saveToken db tok email allowedRequests now expiresAt }

/-- C9: with valid admin credentials, a request whose `allowedRequests` is 0
or whose `email` is empty is answered 400 "Email and allowedRequests are
required" with the store unchanged; and every record the handler ever adds
has a nonzero request quota. -/
theorem c9_zero_quota_never_issued (cfgE cfgP email : String)
    (allowedRequests : Int) (tok : String) (now expiresAt : Int) (db : Db)
    (hzero : allowedRequests = 0 ∨ email = "") :
    generateApiToken cfgE cfgP cfgE cfgP email allowedRequests tok now
        expiresAt db
      = { status := 400,
          error := some "Email and allowedRequests are required",
          db := db } ∧
    ∀ cE cP aE aP em ar t n x,
      (generateApiToken cE cP aE aP em ar t n x db).status = 200 →
      ∀ r ∈ (generateApiToken cE cP aE aP em ar t n x db).db,
        r ∈ db ∨ (r.allowed_requests = ar ∧ ar ≠ 0) := by
  constructor
  · rcases hzero with h0 | h0
    · subst h0
      simp [generateApiToken, truthyNumber]
    · subst h0
      simp [generateApiToken, truthyString]
  · intro cE cP aE aP em ar t n x hs r hr
    unfold generateApiToken at hs hr
    by_cases h1 : (aE != cE || aP != cP) = true
    · rw [if_pos h1] at hs
      cases hs
    · rw [if_neg h1] at hs hr
      by_cases h2 : (!(truthyString em) || !(truthyNumber ar)) = true
      · rw [if_pos h2] at hs
        cases hs
      · rw [if_neg h2] at hr
        simp only [Bool.or_eq_true, Bool.not_eq_true', not_or] at h2
        have har : ar ≠ 0 := by
          intro har0
          subst har0
          simp [truthyNumber] at h2
        simp only [saveToken, List.mem_append, List.mem_singleton] at hr
        rcases hr with h | h
        · exact Or.inl h
        · exact Or.inr ⟨by rw [h], har⟩

/-- Witness for C9 at valid admin credentials and `allowedRequests = 0`. -/
theorem c9_zero_quota_never_issued_witness :
    generateApiToken "admin@x.com" "pw" "admin@x.com" "pw" "u@x.com" 0
        "tokZ" 0 1000 []
      = { status := 400,
          error := some "Email and allowedRequests are required",
          db := [] } :=
  (c9_zero_quota_never_issued "admin@x.com" "pw" "u@x.com" 0 "tokZ" 0 1000 []
    (Or.inl rfl)).1

/-! ### The relational-store variant (src/database.ts, src/unnamed/part_000) -/

/-- Token row of the relational store: `allowed_requests` is the remaining
counter (decremented on use), there is no separate used counter. -/
structure TsTokenRecord where
  token : String
  email : String
  allowed_requests : Int
  expires_at : Int
  deriving Repr, DecidableEq

/-- Model of `getToken` of src/database.ts: the store read either throws or returns
the row or null; the catch block maps a thrown error to null, and a found
row past its expiry is also mapped to null. -/
def tsGetToken (readResult : Except String (Option TsTokenRecord))
    (now : Int) : Option TsTokenRecord :=
  match readResult with
  | .error _ => none
  | .ok none => none
  | .ok (some tokenData) =>
    if tokenData.expires_at < now then none else some tokenData

/-- Model of `authenticateToken` of the TypeScript entry point (src/unnamed/part_000
lines 66-117): like the flat-file variant, with the quota guard
`allowed_requests <= 0`. -/
def tsAuthenticateToken (headerToken : Option String)
    (jwtVerify : String → Option String)
    (readResult : Except String (Option TsTokenRecord)) (now : Int) :
    AuthResult :=
  match headerToken with
  | none => .reject 401 "API token is required"
  | some tok =>
    match jwtVerify tok with
    | none => .reject 401 "Invalid or expired token"
    | some email =>
      match tsGetToken readResult now with
      | none => .reject 403 "Invalid or revoked token"
      | some tokenData =>
        if tokenData.allowed_requests ≤ 0 then
          .reject 402 "Request limit exceeded"
        else
          .proceed tok email

/-- C10: when the store read throws, `getToken` swallows the error and
returns `none`, so the caller is answered exactly as for a nonexistent
record: 403 "Invalid or revoked token", never a 500 store failure. -/
theorem c10_store_failure_is_revocation (e : String) (now : Int)
    (tok email : String) (jwtVerify : String → Option String)
    (hjwt : jwtVerify tok = some email) :
    tsGetToken (.error e) now = none ∧
    tsAuthenticateToken (some tok) jwtVerify (.error e) now
      = tsAuthenticateToken (some tok) jwtVerify (.ok none) now ∧
    tsAuthenticateToken (some tok) jwtVerify (.error e) now
      = .reject 403 "Invalid or revoked token" := by
  refine ⟨rfl, rfl, ?_⟩
  simp [tsAuthenticateToken, hjwt, tsGetToken]

/-- Witness for C10 at a concrete thrown error. -/
theorem c10_store_failure_is_revocation_witness :
    tsGetToken (.error "connection refused") 100 = none ∧
    tsAuthenticateToken (some "tokD") (fun _ => some "d@x.com")
        (.error "connection refused") 100
      = tsAuthenticateToken (some "tokD") (fun _ => some "d@x.com")
          (.ok none) 100 ∧
    tsAuthenticateToken (some "tokD") (fun _ => some "d@x.com")
        (.error "connection refused") 100
      = .reject 403 "Invalid or revoked token" :=
  c10_store_failure_is_revocation "connection refused" 100 "tokD" "d@x.com"
    (fun _ => some "d@x.com") rfl

/-! ### The quota invariant (C7) -/

/-- Invariant of the flat-file store: no record's remaining quota is
negative. -/
def QuotaInv (db : Db) : Prop := ∀ r ∈ db, 0 ≤ remaining r

/-- The function `getToken` only ever returns the record `find` located. -/
theorem getToken_eq_some (db : Db) (tok : String) (now : Int)
    (r : TokenRecord) (h : getToken db tok now = some r) :
    findTokenRec db tok = some r := by
  unfold getToken at h
  cases hf : findTokenRec db tok with
  | none =>
    rw [hf] at h
    cases h
  | some td =>
    rw [hf] at h
    have h2 : (if td.expires_at < now then (none : Option TokenRecord)
        else some td) = some r := h
    by_cases he : td.expires_at < now
    · rw [if_pos he] at h2
      cases h2
    · rw [if_neg he] at h2
      cases h2
      rfl

/-- A `proceed` outcome of the middleware implies the looked-up record passed
the strict quota guard. -/
theorem authenticateToken_proceed (headerToken : Option String)
    (jwtVerify : String → Option String) (db : Db) (now : Int)
    (tok email : String)
    (h : authenticateToken headerToken jwtVerify db now
      = .proceed tok email) :
    headerToken = some tok ∧ ∃ rec, getToken db tok now = some rec ∧
      rec.used_requests < rec.allowed_requests := by
  cases headerToken with
  | none => cases h
  | some t =>
    unfold authenticateToken at h
    have h1 : (match jwtVerify t with
        | none => AuthResult.reject 401 "Invalid or expired token"
        | some email =>
          match getToken db t now with
          | none => AuthResult.reject 403 "Invalid or revoked token"
          | some tokenData =>
            if tokenData.allowed_requests ≤ tokenData.used_requests then
              AuthResult.reject 402 "Request limit exceeded"
            else AuthResult.proceed t email)
        = AuthResult.proceed tok email := h
    cases hj : jwtVerify t with
    | none =>
      rw [hj] at h1
      cases h1
    | some em =>
      rw [hj] at h1
      have h2 : (match getToken db t now with
          | none => AuthResult.reject 403 "Invalid or revoked token"
          | some tokenData =>
            if tokenData.allowed_requests ≤ tokenData.used_requests then
              AuthResult.reject 402 "Request limit exceeded"
            else AuthResult.proceed t em)
          = AuthResult.proceed tok email := h1
      cases hg : getToken db t now with
      | none =>
        rw [hg] at h2
        cases h2
      | some rec =>
        rw [hg] at h2
        have h3 : (if rec.allowed_requests ≤ rec.used_requests then
              AuthResult.reject 402 "Request limit exceeded"
            else AuthResult.proceed t em)
            = AuthResult.proceed tok email := h2
        by_cases hq : rec.allowed_requests ≤ rec.used_requests
        · rw [if_pos hq] at h3
          cases h3
        · rw [if_neg hq] at h3
          cases h3
          exact ⟨rfl, rec, hg, by omega⟩

/-- Bumping the usage of a token whose first matching record still has quota
left preserves the invariant. -/
theorem quotaInv_incrementUsage (db : Db) (tok : String)
    (hinv : QuotaInv db)
    (hq : ∀ r, findTokenRec db tok = some r →
      r.used_requests < r.allowed_requests) :
    QuotaInv (incrementUsage db tok) := by
  induction db with
  | nil =>
    intro r hr
    cases hr
  | cons a rest ih =>
    by_cases ha : (a.token == tok) = true
    · have hstep : incrementUsage (a :: rest) tok
          = { a with used_requests := a.used_requests + 1 } :: rest := by
        simp [incrementUsage, ha]
      have haq : a.used_requests < a.allowed_requests := by
        refine hq a ?_
        rw [findTokenRec]
        exact List.find?_cons_of_pos rest ha
      rw [hstep]
      intro r hr
      rcases List.mem_cons.mp hr with h | h
      · subst h
        unfold remaining
        simp only
        omega
      · exact hinv r (List.mem_cons_of_mem _ h)
    · have hstep : incrementUsage (a :: rest) tok
          = a :: incrementUsage rest tok := by
        simp [incrementUsage, ha]
      have hne : ¬ ((fun t => t.token == tok) a = true) := by simpa using ha
      rw [hstep]
      intro r hr
      rcases List.mem_cons.mp hr with h | h
      · exact h ▸ hinv a (List.mem_cons_self _ _)
      · refine ih (fun x hx => hinv x (List.mem_cons_of_mem _ hx)) ?_ r h
        intro x hx
        refine hq x ?_
        rw [findTokenRec,
          List.find?_cons_of_neg (p := fun (t : TokenRecord) => t.token == tok) _ hne]
        exact hx

/-- C7 counterexample: the public token-generation interface, called with
valid admin credentials and `allowedRequests = -1` (a truthy JS number),
issues a record whose remaining quota is negative — the issuing operation
does not preserve the `quota_remaining ≥ 0` invariant. -/
theorem c7_negative_quota_counterexample :
    QuotaInv ([] : Db) ∧
    (generateApiToken "a@x.com" "pw" "a@x.com" "pw" "u@x.com" (-1) "tokN"
        0 1000 []).status = 200 ∧
    ∃ r ∈ (generateApiToken "a@x.com" "pw" "a@x.com" "pw" "u@x.com" (-1)
        "tokN" 0 1000 []).db, remaining r < 0 := by
  refine ⟨fun r hr => absurd hr (List.not_mem_nil r), by decide, ?_⟩
  refine ⟨{ token := "tokN", email := "u@x.com", allowed_requests := -1,
            used_requests := 0, created_at := 0, expires_at := 1000 },
          by decide, by decide⟩

/-- C7 (amended): provided the issued quota is nonnegative, every operation
of the request flow preserves the invariant that no record's remaining quota
is negative: issuing appends a record with `remaining = q ≥ 0`; the whole
/tiktok flow (validation guard, automation, and the post-delivery decrement)
maps an invariant store to an invariant store; and in the relational-store
variant a record that passes the guard keeps a nonnegative counter after its
decrement. -/
theorem c7_quota_invariant_amended :
    (∀ db tok email q now expiresAt, 0 ≤ q → QuotaInv db →
      QuotaInv (saveToken db tok email q now expiresAt)) ∧
    (∀ headerToken jwtVerify db now url automationOk streamErr,
      QuotaInv db →
      QuotaInv (tiktokFlow headerToken jwtVerify db now url automationOk
          streamErr).db) ∧
    (∀ readResult now tok email jwtVerify r,
      tsGetToken readResult now = some r →
      tsAuthenticateToken (some tok) jwtVerify readResult now
        = .proceed tok email →
      0 ≤ r.allowed_requests - 1) := by
  refine ⟨?_, ?_, ?_⟩
  · intro db tok email q now expiresAt hq hinv r hr
    simp only [saveToken, List.mem_append, List.mem_singleton] at hr
    rcases hr with h | h
    · exact hinv r h
    · subst h
      unfold remaining
      simp only
      omega
  · intro headerToken jwtVerify db now url automationOk streamErr hinv
    cases hauth : authenticateToken headerToken jwtVerify db now with
    | reject s e =>
      have he : tiktokFlow headerToken jwtVerify db now url automationOk
          streamErr = { db := db, status := s, automationReached := false } := by
        unfold tiktokFlow
        rw [hauth]
      rw [he]
      exact hinv
    | proceed tok em =>
      cases url with
      | none =>
        have he : tiktokFlow headerToken jwtVerify db now none automationOk
            streamErr
            = { db := db, status := 400, automationReached := false } := by
          unfold tiktokFlow
          rw [hauth]
        rw [he]
        exact hinv
      | some u =>
        cases automationOk with
        | false =>
          have he : tiktokFlow headerToken jwtVerify db now (some u) false
              streamErr
              = { db := db, status := 500, automationReached := true } := by
            unfold tiktokFlow
            rw [hauth]
            rfl
          rw [he]
          exact hinv
        | true =>
          have he : tiktokFlow headerToken jwtVerify db now (some u) true
              streamErr
              = { db := downloadCallback streamErr tok db, status := 200,
                  automationReached := true } := by
            unfold tiktokFlow
            rw [hauth]
            rfl
          rw [he]
          cases streamErr with
          | true => exact hinv
          | false =>
            have hp := authenticateToken_proceed headerToken jwtVerify db
              now tok em hauth
            obtain ⟨rec, hrec, hlt⟩ := hp.2
            have hfind := getToken_eq_some db tok now rec hrec
            show QuotaInv (incrementUsage db tok)
            refine quotaInv_incrementUsage db tok hinv ?_
            intro r hr
            rw [hfind] at hr
            cases hr
            exact hlt
  · intro readResult now tok email jwtVerify r hget hproceed
    unfold tsAuthenticateToken at hproceed
    have h1 : (match jwtVerify tok with
        | none => AuthResult.reject 401 "Invalid or expired token"
        | some em =>
          match tsGetToken readResult now with
          | none => AuthResult.reject 403 "Invalid or revoked token"
          | some tokenData =>
            if tokenData.allowed_requests ≤ 0 then
              AuthResult.reject 402 "Request limit exceeded"
            else AuthResult.proceed tok em)
        = AuthResult.proceed tok email := hproceed
    cases hj : jwtVerify tok with
    | none =>
      rw [hj] at h1
      cases h1
    | some em =>
      rw [hj] at h1
      have h2 : (match tsGetToken readResult now with
          | none => AuthResult.reject 403 "Invalid or revoked token"
          | some tokenData =>
            if tokenData.allowed_requests ≤ 0 then
              AuthResult.reject 402 "Request limit exceeded"
            else AuthResult.proceed tok em)
          = AuthResult.proceed tok email := h1
      rw [hget] at h2
      have h3 : (if r.allowed_requests ≤ 0 then
            AuthResult.reject 402 "Request limit exceeded"
          else AuthResult.proceed tok em)
          = AuthResult.proceed tok email := h2
      by_cases hq : r.allowed_requests ≤ 0
      · rw [if_pos hq] at h3
        cases h3
      · rw [if_neg hq] at h3
        omega

/-- Witness for C7 (amended): issuing a quota-7 record into the empty store
preserves the invariant. -/
theorem c7_quota_invariant_amended_witness :
    QuotaInv (saveToken [] "tokW" "w@x.com" 7 0 1000) :=
  c7_quota_invariant_amended.1 [] "tokW" "w@x.com" 7 0 1000 (by decide)
    (fun r hr => absurd hr (List.not_mem_nil r))

end SMH
